import Mathlib

/-!
Verification of the backstage repository slice: the location-reference
string helpers (packages/catalog-model/src/location/helpers.ts) and the
containerized command execution orchestrator (runDockerContainer).

JavaScript strings are modelled as lists of characters (JStr), and a
function that can throw is modelled as returning Except with the thrown
message as the error value.
-/

namespace Backstage

/-- A JavaScript string, modelled as its sequence of characters. -/
abbrev JStr := List Char

/-- The record type of a parsed location reference (LocationSpec in
packages/catalog-model/src/location/types.ts): a type tag and a target. -/
structure LocationSpec where
  type : JStr
  target : JStr
deriving DecidableEq, Repr

/-- JavaScript String.indexOf for a single character: the index of the
first occurrence, or none when the character does not occur (JS returns -1;
we use Option instead of the -1 sentinel). -/
def jsIndexOf (c : Char) : JStr → Option Nat
  | [] => none
  | x :: xs => if x = c then some 0 else (jsIndexOf c xs).map (· + 1)

/-- Error message of parseLocationReference for an empty type. -/
def emptyTypeMsg : JStr := "Unable to parse location reference, empty type".toList

/-- Error message of parseLocationReference for an http/https type. -/
def invalidRefMsg : JStr := "Invalid location reference, please use a url type".toList

/-- Error message of stringifyLocationReference for an empty type. -/
def stringifyEmptyMsg : JStr := "Unable to stringify location reference, empty type".toList

/-- parseLocationReference from helpers.ts: find the first colon; at
index 0 the type is empty (throws); with no colon the whole string is the
type and the target is empty; otherwise split at the first colon, throwing
when the type is http or https. (The JS typeof-check branch is outside the
model: every JStr is a string.) -/
def parseLocationReference (ref : JStr) : Except JStr LocationSpec :=
  match jsIndexOf ':' ref with
  | some 0 => .error emptyTypeMsg
  | none => .ok ⟨ref, []⟩
  | some (i + 1) =>
    let ty := ref.take (i + 1)
    let tg := ref.drop (i + 2)
    if ty = "http".toList ∨ ty = "https".toList then .error invalidRefMsg
    else .ok ⟨ty, tg⟩

/-- stringifyLocationReference from helpers.ts: an empty type throws
(JS falsiness of a string is exactly emptiness), otherwise the result is
type ++ ":" ++ target. -/
def stringifyLocationReference (ref : LocationSpec) : Except JStr JStr :=
  if ref.type = [] then .error stringifyEmptyMsg
  else .ok (ref.type ++ ':' :: ref.target)

theorem jsIndexOf_eq_none_iff (c : Char) (l : JStr) :
    jsIndexOf c l = none ↔ c ∉ l := by
  induction l with
  | nil => simp [jsIndexOf]
  | cons x xs ih =>
    by_cases hx : x = c
    · simp [jsIndexOf, hx]
    · simp [jsIndexOf, hx, ih]
      exact fun _ h => hx h.symm

theorem jsIndexOf_mem_of_eq_some {c : Char} {l : JStr} {i : Nat}
    (h : jsIndexOf c l = some i) : c ∈ l := by
  induction l generalizing i with
  | nil => simp [jsIndexOf] at h
  | cons x xs ih =>
    by_cases hx : x = c
    · simp [hx]
    · simp only [jsIndexOf, if_neg hx, Option.map_eq_some'] at h
      obtain ⟨j, hj, _⟩ := h
      exact List.mem_cons_of_mem _ (ih hj)

theorem jsIndexOf_eq_zero_iff (c : Char) (l : JStr) :
    jsIndexOf c l = some 0 ↔ l.head? = some c := by
  cases l with
  | nil => simp [jsIndexOf]
  | cons x xs =>
    by_cases hx : x = c
    · simp [jsIndexOf, hx]
    · simp [jsIndexOf, hx, fun h : c = x => hx h.symm, Option.map_eq_some']

theorem jsIndexOf_take {c : Char} {l : JStr} {i : Nat}
    (h : jsIndexOf c l = some i) :
    l.take i = l.takeWhile (fun x => x != c) := by
  induction l generalizing i with
  | nil => simp [jsIndexOf] at h
  | cons x xs ih =>
    by_cases hx : x = c
    · simp only [jsIndexOf, if_pos hx, Option.some.injEq] at h
      subst h
      simp [List.takeWhile_cons, hx]
    · simp only [jsIndexOf, if_neg hx, Option.map_eq_some'] at h
      obtain ⟨j, hj, rfl⟩ := h
      simp [List.takeWhile_cons, hx, List.take_succ_cons, ih hj]

theorem jsIndexOf_drop {c : Char} {l : JStr} {i : Nat}
    (h : jsIndexOf c l = some i) :
    l.drop (i + 1) = (l.dropWhile (fun x => x != c)).tail := by
  induction l generalizing i with
  | nil => simp [jsIndexOf] at h
  | cons x xs ih =>
    by_cases hx : x = c
    · simp only [jsIndexOf, if_pos hx, Option.some.injEq] at h
      subst h
      simp [List.dropWhile_cons, hx]
    · simp only [jsIndexOf, if_neg hx, Option.map_eq_some'] at h
      obtain ⟨j, hj, rfl⟩ := h
      simp [List.dropWhile_cons, hx, ih hj]

theorem jsIndexOf_append (c : Char) (ty tg : JStr) (h : c ∉ ty) :
    jsIndexOf c (ty ++ c :: tg) = some ty.length := by
  induction ty with
  | nil => simp [jsIndexOf]
  | cons x xs ih =>
    have hx : ¬ x = c := fun hxc => h (hxc ▸ List.mem_cons_self x xs)
    have hxs : c ∉ xs := fun hc => h (List.mem_cons_of_mem _ hc)
    simp [jsIndexOf, hx, ih hxs]

/-- C9: parseLocationReference splits at the first colon only, with total
error behavior: it throws iff the reference begins with a colon (empty
type) or the prefix before the first colon is http or https; with no colon
it returns the whole string as the type and an empty target; otherwise it
returns the prefix before the first colon and everything after it. -/
theorem parseLocationReference_splits_at_first_colon (ref : JStr) :
    parseLocationReference ref =
      if ref.head? = some ':' then Except.error emptyTypeMsg
      else if ':' ∈ ref then
        if ref.takeWhile (fun x => x != ':') = "http".toList
            ∨ ref.takeWhile (fun x => x != ':') = "https".toList then
          Except.error invalidRefMsg
        else
          Except.ok ⟨ref.takeWhile (fun x => x != ':'),
                     (ref.dropWhile (fun x => x != ':')).tail⟩
      else Except.ok ⟨ref, []⟩ := by
  cases h : jsIndexOf ':' ref with
  | none =>
    have hmem : ':' ∉ ref := (jsIndexOf_eq_none_iff _ _).mp h
    have hhead : ¬ ref.head? = some ':' := by
      intro hh
      have h0 := (jsIndexOf_eq_zero_iff ':' ref).mpr hh
      rw [h] at h0
      exact Option.noConfusion h0
    simp [parseLocationReference, h, hhead, hmem]
  | some i =>
    cases i with
    | zero =>
      have hhead : ref.head? = some ':' := (jsIndexOf_eq_zero_iff ':' ref).mp h
      simp [parseLocationReference, h, hhead]
    | succ j =>
      have hmem : ':' ∈ ref := jsIndexOf_mem_of_eq_some h
      have hhead : ¬ ref.head? = some ':' := by
        intro hh
        have h0 := (jsIndexOf_eq_zero_iff ':' ref).mpr hh
        rw [h] at h0
        simp at h0
      have htake := jsIndexOf_take h
      have hdrop := jsIndexOf_drop h
      simp only [parseLocationReference, h, htake, hdrop]
      simp [hhead, hmem]

/-- C8: round-trip of the location-reference helpers: for every record
whose type is non-empty, contains no colon, and is neither http nor https,
parsing the stringified reference returns exactly the original record
(the target may itself contain colons). -/
theorem stringify_parse_roundtrip (ty tg : JStr) (h1 : ty ≠ []) (h2 : ':' ∉ ty)
    (h3 : ¬ ty = "http".toList) (h4 : ¬ ty = "https".toList) :
    ∃ s, stringifyLocationReference ⟨ty, tg⟩ = Except.ok s ∧
      parseLocationReference s = Except.ok ⟨ty, tg⟩ := by
  refine ⟨ty ++ ':' :: tg, ?_, ?_⟩
  · simp [stringifyLocationReference, h1]
  · have hidx : jsIndexOf ':' (ty ++ ':' :: tg) = some ty.length :=
      jsIndexOf_append ':' ty tg h2
    obtain ⟨a, as, rfl⟩ : ∃ a as, ty = a :: as := by
      cases ty with
      | nil => exact absurd rfl h1
      | cons a as => exact ⟨a, as, rfl⟩
    have hlen : (a :: as).length = as.length + 1 := rfl
    rw [hlen] at hidx
    have ht : ((a :: as) ++ ':' :: tg).take (as.length + 1) = a :: as := by
      have h5 : as.length + 1 = (a :: as).length := rfl
      rw [h5, List.take_left]
    have hd : ((a :: as) ++ ':' :: tg).drop (as.length + 2) = tg := by
      have he : (a :: as) ++ ':' :: tg = ((a :: as) ++ [':']) ++ tg := by simp
      have hl : as.length + 2 = ((a :: as) ++ [':']).length := by simp
      rw [he, hl, List.drop_left]
    simp only [parseLocationReference, hidx, ht, hd]
    simp only [ite_eq_right_iff]
    intro hor
    rcases hor with hh | hh
    · exact absurd hh h3
    · exact absurd hh h4

/-- Witness for C8: the round-trip at the record with type url and target
https://host, whose target contains colons and slashes. -/
theorem stringify_parse_roundtrip_witness :
    ∃ s, stringifyLocationReference ⟨"url".toList, "https://host".toList⟩ = Except.ok s ∧
      parseLocationReference s = Except.ok ⟨"url".toList, "https://host".toList⟩ :=
  stringify_parse_roundtrip "url".toList "https://host".toList (by decide) (by decide)
    (by decide) (by decide)

/-- C10: stringifyLocationReference throws iff the given type is the empty
string; for every record with non-empty type it returns the concatenation
type ++ ":" ++ target, regardless of the contents of target. -/
theorem stringifyLocationReference_spec (ref : LocationSpec) :
    (stringifyLocationReference ref = Except.error stringifyEmptyMsg ↔ ref.type = [])
    ∧ (ref.type ≠ [] →
        stringifyLocationReference ref = Except.ok (ref.type ++ ':' :: ref.target)) := by
  refine ⟨⟨fun h => ?_, fun h => by simp [stringifyLocationReference, h]⟩,
    fun h => by simp [stringifyLocationReference, h]⟩
  by_contra hne
  simp [stringifyLocationReference, hne] at h

/-- Witness for C10 at the record with type custom and empty target: the
result has a trailing colon. -/
theorem stringifyLocationReference_spec_witness :
    (stringifyLocationReference ⟨"custom".toList, []⟩ = Except.error stringifyEmptyMsg
      ↔ ("custom".toList : JStr) = [])
    ∧ (("custom".toList : JStr) ≠ [] →
        stringifyLocationReference ⟨"custom".toList, []⟩ =
          Except.ok ("custom".toList ++ ':' :: ([] : JStr))) :=
  stringifyLocationReference_spec ⟨"custom".toList, []⟩

/-! ## The containerized command execution orchestrator

The runDockerContainer implementation itself (the docker module) is not
among the provided sources; only its test file is. The definitions below
are therefore modelled from the spec (sections 3, 4 and 6), consistent
with the behavior the test file exercises. The asynchronous engine client
is modelled by the outcomes of its three operations, and an invocation is
modelled as a pure function returning the outcome together with the trace
of engine calls made, in order. -/

/-- A writable byte stream used as a log sink. The default sink models the
fresh stream the orchestrator supplies when the caller gives none; custom
sinks are distinguished by an identifier so that object identity of a
caller-supplied sink is expressible. -/
inductive Sink where
  | defaultSink : Sink
  | custom : Nat → Sink
deriving DecidableEq, Repr

/-- A pull-options object, modelled as a list of key-value pairs; the
empty list models the empty options object. -/
abbrev PullOptions := List (JStr × JStr)

/-- The result tuple the engine run operation resolves with: an optional
in-container error (message text, or none for null) and a numeric exit
code. Field names follow the test file (Error, StatusCode). -/
structure RunResult where
  Error : Option JStr
  StatusCode : Int
deriving DecidableEq, Repr

/-- Modelled from the spec: the engine client collaborator (section 6),
given by the outcomes of its three capabilities for one invocation —
ping succeeds or throws, pull delivers a stream that ends or signals an
error, run resolves with a result tuple or rejects. -/
structure DockerClient where
  ping : Except JStr Unit
  pull : Except JStr Unit
  run : Except JStr RunResult

/-- Modelled from the spec: host facilities the orchestrator consults —
symlink-resolving realpath (none when the directory does not exist) and
the POSIX user/group identifiers of the invoking process (none on a host
that does not expose them). -/
structure Host where
  realpath : JStr → Option JStr
  uidgid : Option (Nat × Nat)

/-- The run configuration passed to the engine run operation: bind-mount
pairs (HostConfig.Binds), declared container mount points (Volumes keys),
and the optional identity field (User). -/
structure RunConfig where
  Binds : List JStr
  Volumes : List JStr
  User : Option JStr
deriving DecidableEq, Repr

/-- The argument record of runDockerContainer, following the test file:
image name, command arguments, host input and output directories, optional
log stream and optional pull options (the engine client is passed
separately). -/
structure RunContainerOptions where
  imageName : JStr
  args : List JStr
  inputDir : JStr
  outputDir : JStr
  logStream : Option Sink
  pullOptions : Option PullOptions
deriving DecidableEq, Repr

/-- One call made to the engine client, with the arguments it received. -/
inductive EngineCall where
  | ping : EngineCall
  | pull : JStr → PullOptions → EngineCall
  | run : JStr → List JStr → Sink → RunConfig → EngineCall
deriving DecidableEq, Repr

/-- Whether an engine call is a pull call. -/
def EngineCall.isPull : EngineCall → Bool
  | .pull _ _ => true
  | _ => false

/-- Whether an engine call is a run call. -/
def EngineCall.isRun : EngineCall → Bool
  | .run _ _ _ _ => true
  | _ => false

/-- The run configuration of the first run call in a trace, if any. -/
def runConfigOf : List EngineCall → Option RunConfig
  | [] => none
  | .run _ _ _ cfg :: _ => some cfg
  | _ :: t => runConfigOf t

/-- The sink of the first run call in a trace, if any. -/
def runSinkOf : List EngineCall → Option Sink
  | [] => none
  | .run _ _ s _ :: _ => some s
  | _ :: t => runSinkOf t

/-- The image and options of the first pull call in a trace, if any. -/
def pullArgsOf : List EngineCall → Option (JStr × PullOptions)
  | [] => none
  | .pull i opts :: _ => some (i, opts)
  | _ :: t => pullArgsOf t

/-- The default pull options: the empty options object. -/
def defaultPullOptions : PullOptions := []

/-- The identity string of the run configuration for uid u and gid g. -/
def uidGidString (u g : Nat) : JStr := (Nat.repr u).toList ++ ':' :: (Nat.repr g).toList

/-- Description prefixed to the underlying error text when the engine
availability probe fails. -/
def engineUnreachableText : JStr := "Docker daemon is unreachable".toList

/-- Description prefixed to the underlying error text when the pull stream
signals an error. -/
def pullFailedText : JStr := "Docker image pull failed".toList

/-- Description prefixed to the in-container error text when the resolved
run result carries a non-null error. -/
def commandFailedText : JStr := "Docker container returned an error".toList

/-- Failure message when a host directory cannot be resolved. -/
def badDirText : JStr := "Input or output directory does not exist".toList

/-- Modelled from the spec: runDockerContainer (the docker module absent
from the sources; sections 4.1-4.4). Probe the engine (on failure, fail
with the unreachability description prefixing the error text and call
nothing else); pull the image with the given options or the empty default
(a stream error fails the invocation before run is invoked); resolve the
host directories; construct the run configuration with exactly the two
binds mapping the resolved input to /input and the resolved output to
/output, the two mount points, and the uid:gid identity when the host
exposes one; invoke run
with the caller sink or a default; finally map the outcome — a rejected
run call propagates, a non-null Error fails with its text, and a null
Error succeeds regardless of StatusCode. Returns the outcome and the
ordered trace of engine calls. -/
def runDockerContainer (host : Host) (client : DockerClient)
    (o : RunContainerOptions) : Except JStr Unit × List EngineCall :=
  match client.ping with
  | .error e => (.error (engineUnreachableText ++ ':' :: ' ' :: e), [.ping])
  | .ok _ =>
    let pullCall := EngineCall.pull o.imageName (o.pullOptions.getD defaultPullOptions)
    match client.pull with
    | .error e => (.error (pullFailedText ++ ':' :: ' ' :: e), [.ping, pullCall])
    | .ok _ =>
      match host.realpath o.inputDir, host.realpath o.outputDir with
      | some realInput, some realOutput =>
        let cfg : RunConfig :=
          ⟨[realInput ++ ":/input".toList, realOutput ++ ":/output".toList],
           ["/input".toList, "/output".toList],
           host.uidgid.map fun p => uidGidString p.1 p.2⟩
        let sink := o.logStream.getD Sink.defaultSink
        let runCall := EngineCall.run o.imageName o.args sink cfg
        match client.run with
        | .error e => (.error e, [.ping, pullCall, runCall])
        | .ok res =>
          match res.Error with
          | some msg =>
            (.error (commandFailedText ++ ':' :: ' ' :: msg), [.ping, pullCall, runCall])
          | none => (.ok (), [.ping, pullCall, runCall])
      | _, _ => (.error badDirText, [.ping, pullCall])

theorem trace_after_success (host : Host) (client : DockerClient)
    (o : RunContainerOptions) (ri ro : JStr)
    (hping : client.ping = .ok ()) (hpull : client.pull = .ok ())
    (hin : host.realpath o.inputDir = some ri)
    (hout : host.realpath o.outputDir = some ro) :
    (runDockerContainer host client o).2 =
      [.ping, .pull o.imageName (o.pullOptions.getD defaultPullOptions),
       .run o.imageName o.args (o.logStream.getD Sink.defaultSink)
         ⟨[ri ++ ":/input".toList, ro ++ ":/output".toList],
          ["/input".toList, "/output".toList],
          host.uidgid.map fun p => uidGidString p.1 p.2⟩] := by
  cases hr : client.run with
  | error e => simp [runDockerContainer, hping, hpull, hin, hout, hr]
  | ok res =>
    cases he : res.Error <;>
      simp [runDockerContainer, hping, hpull, hin, hout, hr, he]

theorem runConfigOf_trace (host : Host) (client : DockerClient)
    (o : RunContainerOptions) (ri ro : JStr)
    (hping : client.ping = .ok ()) (hpull : client.pull = .ok ())
    (hin : host.realpath o.inputDir = some ri)
    (hout : host.realpath o.outputDir = some ro) :
    runConfigOf (runDockerContainer host client o).2 =
      some ⟨[ri ++ ":/input".toList, ro ++ ":/output".toList],
            ["/input".toList, "/output".toList],
            host.uidgid.map fun p => uidGidString p.1 p.2⟩ := by
  rw [trace_after_success host client o ri ro hping hpull hin hout]
  simp [runConfigOf]

theorem pullArgsOf_trace (host : Host) (client : DockerClient)
    (o : RunContainerOptions) (hping : client.ping = .ok ()) :
    pullArgsOf (runDockerContainer host client o).2 =
      some (o.imageName, o.pullOptions.getD defaultPullOptions) := by
  cases hp : client.pull with
  | error e => simp [runDockerContainer, hping, hp, pullArgsOf]
  | ok _ =>
    cases hin : host.realpath o.inputDir with
    | none => simp [runDockerContainer, hping, hp, hin, pullArgsOf]
    | some ri =>
      cases hout : host.realpath o.outputDir with
      | none => simp [runDockerContainer, hping, hp, hin, hout, pullArgsOf]
      | some ro =>
        cases hr : client.run with
        | error e => simp [runDockerContainer, hping, hp, hin, hout, hr, pullArgsOf]
        | ok res =>
          cases he : res.Error <;>
            simp [runDockerContainer, hping, hp, hin, hout, hr, he, pullArgsOf]

theorem trace_shape (host : Host) (client : DockerClient)
    (o : RunContainerOptions) :
    (runDockerContainer host client o).2 = [.ping]
    ∨ (∃ popts, (runDockerContainer host client o).2 =
        [.ping, .pull o.imageName popts])
    ∨ (∃ popts s cfg, (runDockerContainer host client o).2 =
        [.ping, .pull o.imageName popts, .run o.imageName o.args s cfg]) := by
  cases hping : client.ping with
  | error e => left; simp [runDockerContainer, hping]
  | ok _ =>
    cases hp : client.pull with
    | error e =>
      right; left
      exact ⟨o.pullOptions.getD defaultPullOptions, by simp [runDockerContainer, hping, hp]⟩
    | ok _ =>
      cases hin : host.realpath o.inputDir with
      | none =>
        right; left
        exact ⟨o.pullOptions.getD defaultPullOptions,
          by simp [runDockerContainer, hping, hp, hin]⟩
      | some ri =>
        cases hout : host.realpath o.outputDir with
        | none =>
          right; left
          exact ⟨o.pullOptions.getD defaultPullOptions,
            by simp [runDockerContainer, hping, hp, hin, hout]⟩
        | some ro =>
          right; right
          exact ⟨_, _, _, trace_after_success host client o ri ro hping hp hin hout⟩

/-- A sample host whose realpath is defined everywhere and whose process
has uid 1000 and gid 1000. -/
def sampleHost : Host := ⟨fun p => some p, some (1000, 1000)⟩

/-- Sample invocation options following the test file fixtures. -/
def sampleOptions : RunContainerOptions :=
  ⟨"dockerOrg/image".toList,
   ["bash".toList, "-c".toList, "echo test".toList],
   "/tmp".toList, "/tmp".toList, none, none⟩

/-- An engine client for which all three operations succeed, the run
result carrying a null error and exit code 0. -/
def okClient : DockerClient := ⟨.ok (), .ok (), .ok ⟨none, 0⟩⟩

/-- An engine client whose run call resolves with a non-null error. -/
def errClient : DockerClient :=
  ⟨.ok (), .ok (), .ok ⟨some "Something went wrong with docker".toList, 0⟩⟩

/-- An engine client whose ping throws. -/
def pingErrClient : DockerClient :=
  ⟨.error "a docker error".toList, .ok (), .ok ⟨none, 0⟩⟩

/-- An engine client whose pull stream signals an error. -/
def pullErrClient : DockerClient :=
  ⟨.ok (), .error "pull broke".toList, .ok ⟨none, 0⟩⟩

/-- Sample invocation options carrying an explicit log stream. -/
def sampleOptionsWithLog : RunContainerOptions :=
  ⟨"dockerOrg/image".toList,
   ["bash".toList, "-c".toList, "echo test".toList],
   "/tmp".toList, "/tmp".toList, some (Sink.custom 7), none⟩

/-- C1: when the engine run call itself resolves, the invocation fails iff
the resolved result's Error field is non-null: a non-null Error fails with
a message containing that error's text, a null Error succeeds — and since
the result (in particular its StatusCode) is universally quantified, the
numeric exit code value has no influence on the outcome. -/
theorem run_result_outcome (host : Host) (client : DockerClient)
    (o : RunContainerOptions) (res : RunResult) (ri ro : JStr)
    (hping : client.ping = .ok ()) (hpull : client.pull = .ok ())
    (hin : host.realpath o.inputDir = some ri)
    (hout : host.realpath o.outputDir = some ro)
    (hrun : client.run = .ok res) :
    (∀ e, res.Error = some e →
      ∃ pre suf, (runDockerContainer host client o).1 = .error (pre ++ e ++ suf))
    ∧ (res.Error = none → (runDockerContainer host client o).1 = .ok ()) := by
  constructor
  · intro e he
    refine ⟨commandFailedText ++ [':', ' '], [], ?_⟩
    simp [runDockerContainer, hping, hpull, hin, hout, hrun, he]
  · intro he
    simp [runDockerContainer, hping, hpull, hin, hout, hrun, he]

/-- Witness for C1: with a run result carrying a non-null error, the
invocation fails with a message containing that error's text. -/
theorem run_result_outcome_witness :
    ∃ pre suf, (runDockerContainer sampleHost errClient sampleOptions).1 =
      .error (pre ++ "Something went wrong with docker".toList ++ suf) :=
  (run_result_outcome sampleHost errClient sampleOptions
      ⟨some "Something went wrong with docker".toList, 0⟩
      "/tmp".toList "/tmp".toList rfl rfl rfl rfl rfl).1 _ rfl

/-- C2: for every invocation whose directories resolve on the host, the
run configuration passed to the engine run operation has exactly the two
binds mapping the resolved input path to /input and the resolved output
path to /output, and declares exactly /input and /output as container
mount points. -/
theorem run_config_binds (host : Host) (client : DockerClient)
    (o : RunContainerOptions) (ri ro : JStr)
    (hping : client.ping = .ok ()) (hpull : client.pull = .ok ())
    (hin : host.realpath o.inputDir = some ri)
    (hout : host.realpath o.outputDir = some ro) :
    ∃ u, runConfigOf (runDockerContainer host client o).2 =
      some ⟨[ri ++ ":/input".toList, ro ++ ":/output".toList],
            ["/input".toList, "/output".toList], u⟩ :=
  ⟨host.uidgid.map fun p => uidGidString p.1 p.2,
   runConfigOf_trace host client o ri ro hping hpull hin hout⟩

/-- Witness for C2 at the sample invocation: the two binds are
/tmp:/input and /tmp:/output. -/
theorem run_config_binds_witness :
    ∃ u, runConfigOf (runDockerContainer sampleHost okClient sampleOptions).2 =
      some ⟨["/tmp".toList ++ ":/input".toList, "/tmp".toList ++ ":/output".toList],
            ["/input".toList, "/output".toList], u⟩ :=
  run_config_binds sampleHost okClient sampleOptions "/tmp".toList "/tmp".toList
    rfl rfl rfl rfl

/-- C3: when the availability probe throws with error text e, the
invocation fails with a message of the form described-prefix, colon,
space, e (the description non-empty), and the trace contains neither a
pull call nor a run call. -/
theorem ping_failure_fails_fast (host : Host) (client : DockerClient)
    (o : RunContainerOptions) (e : JStr) (h : client.ping = .error e) :
    (∃ desc, desc ≠ [] ∧
      (runDockerContainer host client o).1 = .error (desc ++ ':' :: ' ' :: e))
    ∧ ∀ c ∈ (runDockerContainer host client o).2,
        c.isPull = false ∧ c.isRun = false := by
  constructor
  · exact ⟨engineUnreachableText, by decide, by simp [runDockerContainer, h]⟩
  · intro c hc
    simp [runDockerContainer, h] at hc
    subst hc
    exact ⟨rfl, rfl⟩

/-- Witness for C3: probe failing with a docker error produces a message
matching description, colon, space, error text. -/
theorem ping_failure_fails_fast_witness :
    ∃ desc, desc ≠ [] ∧
      (runDockerContainer sampleHost pingErrClient sampleOptions).1 =
        .error (desc ++ ':' :: ' ' :: "a docker error".toList) :=
  (ping_failure_fails_fast sampleHost pingErrClient sampleOptions
    "a docker error".toList rfl).1

/-- C4: on a host exposing POSIX identifiers uid u and gid g, the run
configuration's User field equals the string u, colon, g; on a host that
does not expose them, the User field is absent (none). -/
theorem run_config_identity (host : Host) (client : DockerClient)
    (o : RunContainerOptions) (ri ro : JStr)
    (hping : client.ping = .ok ()) (hpull : client.pull = .ok ())
    (hin : host.realpath o.inputDir = some ri)
    (hout : host.realpath o.outputDir = some ro) :
    (∀ u g, host.uidgid = some (u, g) →
      ∃ cfg, runConfigOf (runDockerContainer host client o).2 = some cfg ∧
        cfg.User = some (uidGidString u g))
    ∧ (host.uidgid = none →
      ∃ cfg, runConfigOf (runDockerContainer host client o).2 = some cfg ∧
        cfg.User = none) := by
  have ht := runConfigOf_trace host client o ri ro hping hpull hin hout
  constructor
  · intro u g hug
    exact ⟨_, ht, by simp [hug]⟩
  · intro hug
    exact ⟨_, ht, by simp [hug]⟩

/-- Witness for C4 at the sample host with uid 1000 and gid 1000. -/
theorem run_config_identity_witness :
    ∃ cfg, runConfigOf (runDockerContainer sampleHost okClient sampleOptions).2 =
      some cfg ∧ cfg.User = some (uidGidString 1000 1000) :=
  (run_config_identity sampleHost okClient sampleOptions "/tmp".toList "/tmp".toList
    rfl rfl rfl rfl).1 1000 1000 rfl

/-- C5: when the pull stream signals an error (probe having succeeded),
the invocation fails and no run call appears in the trace; moreover, for
every invocation whatsoever, any run call in the trace is preceded by a
pull call — image acquisition completes before the container is started. -/
theorem pull_failure_blocks_run (host : Host) (client : DockerClient)
    (o : RunContainerOptions) (e : JStr)
    (hping : client.ping = .ok ()) (hpull : client.pull = .error e) :
    ((∃ msg, (runDockerContainer host client o).1 = .error msg)
      ∧ ∀ c ∈ (runDockerContainer host client o).2, c.isRun = false)
    ∧ ∀ (h2 : Host) (c2 : DockerClient) (o2 : RunContainerOptions) (k : Nat)
        (call : EngineCall),
        ((runDockerContainer h2 c2 o2).2).get? k = some call →
        call.isRun = true →
        ∃ j, j < k ∧ ∃ pc, ((runDockerContainer h2 c2 o2).2).get? j = some pc ∧
          pc.isPull = true := by
  refine ⟨⟨⟨pullFailedText ++ ':' :: ' ' :: e,
    by simp [runDockerContainer, hping, hpull]⟩, ?_⟩, ?_⟩
  · intro c hc
    simp [runDockerContainer, hping, hpull] at hc
    rcases hc with rfl | rfl <;> rfl
  · intro h2 c2 o2 k call hk hrun
    rcases trace_shape h2 c2 o2 with ht | ⟨popts, ht⟩ | ⟨popts, s, cfg, ht⟩
    · rw [ht] at hk
      rcases k with _ | k
      · simp at hk; subst hk; simp [EngineCall.isRun] at hrun
      · simp [List.get?] at hk
    · rw [ht] at hk
      rcases k with _ | _ | k
      · simp at hk; subst hk; simp [EngineCall.isRun] at hrun
      · simp at hk; subst hk; simp [EngineCall.isRun] at hrun
      · simp [List.get?] at hk
    · rw [ht] at hk
      rcases k with _ | _ | _ | k
      · simp at hk; subst hk; simp [EngineCall.isRun] at hrun
      · simp at hk; subst hk; simp [EngineCall.isRun] at hrun
      · exact ⟨1, by omega, .pull o2.imageName popts, by rw [ht]; rfl, rfl⟩
      · simp [List.get?] at hk

/-- Witness for C5: with a failing pull stream the invocation fails. -/
theorem pull_failure_blocks_run_witness :
    ∃ msg, (runDockerContainer sampleHost pullErrClient sampleOptions).1 =
      .error msg :=
  ((pull_failure_blocks_run sampleHost pullErrClient sampleOptions
    "pull broke".toList rfl rfl).1).1

/-- C6: an explicitly supplied log sink is passed, as that exact sink, to
the engine run operation as the output destination; with no sink supplied,
the default destination is used instead. -/
theorem log_stream_passthrough (host : Host) (client : DockerClient)
    (o : RunContainerOptions) (ri ro : JStr)
    (hping : client.ping = .ok ()) (hpull : client.pull = .ok ())
    (hin : host.realpath o.inputDir = some ri)
    (hout : host.realpath o.outputDir = some ro) :
    (∀ s, o.logStream = some s →
      runSinkOf (runDockerContainer host client o).2 = some s)
    ∧ (o.logStream = none →
      runSinkOf (runDockerContainer host client o).2 = some Sink.defaultSink) := by
  have ht := trace_after_success host client o ri ro hping hpull hin hout
  constructor
  · intro s hs
    rw [ht]
    simp [runSinkOf, hs]
  · intro hs
    rw [ht]
    simp [runSinkOf, hs]

/-- Witness for C6: the caller-supplied custom sink 7 reaches the run
call unchanged. -/
theorem log_stream_passthrough_witness :
    runSinkOf (runDockerContainer sampleHost okClient sampleOptionsWithLog).2 =
      some (Sink.custom 7) :=
  (log_stream_passthrough sampleHost okClient sampleOptionsWithLog
    "/tmp".toList "/tmp".toList rfl rfl rfl rfl).1 (Sink.custom 7) rfl

/-- C7: with no pull options supplied, the engine pull operation is
invoked with the requested image name and the empty options set. -/
theorem pull_default_options (host : Host) (client : DockerClient)
    (o : RunContainerOptions)
    (hping : client.ping = .ok ()) (hopts : o.pullOptions = none) :
    pullArgsOf (runDockerContainer host client o).2 =
      some (o.imageName, defaultPullOptions) := by
  have h := pullArgsOf_trace host client o hping
  rw [hopts] at h
  simpa using h

/-- Witness for C7 at the sample invocation, which supplies no pull
options: pull receives the image name and the empty options set. -/
theorem pull_default_options_witness :
    pullArgsOf (runDockerContainer sampleHost okClient sampleOptions).2 =
      some ("dockerOrg/image".toList, defaultPullOptions) :=
  pull_default_options sampleHost okClient sampleOptions rfl rfl

end Backstage
